import Mathlib

/-!
A shallow embedding of the di_container library (src/di_container/container.py).

Modelling conventions:
- Python values are `Value`; the Python singleton `None` is `Value.vnone`.
  Object identity is modelled by a fresh object id drawn from a global counter
  at each producer invocation.
- Registry keys are types or strings (`RKey`); Python types are type ids (Nat)
  and `issubclass` is an environment-supplied boolean relation (the host
  language type system is an external collaborator of the library).
- Mutable objects live in heaps inside `DiState`: registers, registries and
  containers are addressed by Nat ids, so aliasing (a registry shared between
  a container and a parent sub-registry list, a register reachable both
  directly and through a registry) behaves as in Python.
- Python dicts are insertion-ordered association lists: assignment to a
  present key keeps its position, assignment to a fresh key appends.
- Exceptions are `Except DiErr`; every operation returns the (possibly
  mutated) state next to the result, since a Python exception does not roll
  back prior mutations.
- Recursive resolution carries a fuel parameter bounding the recursion depth
  (running out of fuel yields `DiErr.fuelExhausted`, the analogue of a stack
  overflow for genuinely divergent registrations).
- Producer invocations are logged in `DiState.log` as (register id, produced
  value) pairs, so that claims about "the producer is (not) invoked" are
  observable.
- Python string annotations are resolved by the host eval to a type before
  lookup; annotations are modelled as already-evaluated type ids.
-/

namespace DiCon

/-- Python runtime values. `vnone` is the Python None singleton; `vobj t o`
is an instance of type id `t` with object identity `o`. -/
inductive Value where
  | vnone
  | vint (n : Int)
  | vstr (s : String)
  | vobj (tid : Nat) (oid : Nat)
deriving DecidableEq

/-- A registry key: a Python type (by type id) or a string name. -/
inductive RKey where
  | typeKey (t : Nat)
  | nameKey (n : String)
deriving DecidableEq

/-- The Instantiation enum of the library. -/
inductive Instantiation where
  | singleton
  | multiInstance
deriving DecidableEq

/-- The host language facilities the library consumes: the subclass relation
between type ids and the type ids of the primitive values. -/
structure PyEnv where
  subclass : Nat → Nat → Bool
  noneTypeId : Nat
  intTypeId : Nat
  strTypeId : Nat

/-- Python type(v): the runtime type id of a value. -/
def PyEnv.typeOf (env : PyEnv) : Value → Nat
  | Value.vnone => env.noneTypeId
  | Value.vint _ => env.intTypeId
  | Value.vstr _ => env.strTypeId
  | Value.vobj t _ => t

/-- The result of inspect.getfullargspec on a producer: declared positional
parameters, variadic flags, defaults (matched from the end), keyword-only
parameters with their defaults, and declared parameter types. -/
structure FullArgSpec where
  args : List String
  varargs : Bool
  varkw : Bool
  defaults : List Value
  kwonlyargs : List String
  kwonlydefaults : List (String × Value)
  anns : List (String × Nat)

/-- A Python callable: its name, whether it is a type (in which case the
argspec is that of its constructor, including the self parameter), its
argspec, and its behaviour given positional arguments, keyword arguments and
a fresh object id. -/
structure PyCallable where
  cname : String
  isType : Bool
  spec : FullArgSpec
  construct : List Value → List (String × Value) → Nat → Value

/-- The Register subclass a record belongs to. -/
inductive RegisterVariant where
  | callableReg (c : PyCallable) (returnType : Option Nat)
  | typeReg (t : Nat) (c : PyCallable)
  | valueReg

/-- The mutable fields of a Register record. -/
structure RegisterState where
  isValid : Bool
  key : Option RKey
  registry : Nat
  inst : Instantiation
  paramNamesAsBindings : Bool
  givenPositionalParams : List Value
  givenKeywordParams : List (String × Value)
  givenPositionalNameBindings : List RKey
  givenKeywordNameBindings : List (String × RKey)
  cachedInstance : Value
  variant : RegisterVariant

/-- A _Registry: its name, its local dict of key to register id, and its
ordered dict of sub-registries (name to registry id). -/
structure RegistryState where
  rname : String
  entries : List (RKey × Nat)
  subs : List (String × Nat)

/-- A Container: its name, its ordered dict of sub-containers, its registry
and its param_names_as_bindings flag. -/
structure ContainerState where
  cname : String
  subContainers : List (String × Nat)
  registry : Nat
  paramNamesAsBindings : Bool

/-- The global mutable world. -/
structure DiState where
  env : PyEnv
  registers : Nat → RegisterState
  nRegisters : Nat
  registries : Nat → RegistryState
  nRegistries : Nat
  containers : Nat → ContainerState
  nContainers : Nat
  nextObjId : Nat
  log : List (Nat × Value)

/-- Python exceptions raised by the library. -/
inductive DiErr where
  | diContainerError (msg : String)
  | valueError (msg : String)
  | typeError (msg : String)
  | keyError (msg : String)
  | attributeError
  | fuelExhausted
deriving DecidableEq

instance instDecEqExcept {ε α : Type} [DecidableEq ε] [DecidableEq α] : DecidableEq (Except ε α) :=
  fun a b =>
    match a, b with
    | Except.ok x, Except.ok y =>
      decidable_of_iff (x = y) ⟨fun h => by rw [h], fun h => by injection h⟩
    | Except.ok _, Except.error _ => Decidable.isFalse (fun h => by injection h)
    | Except.error _, Except.ok _ => Decidable.isFalse (fun h => by injection h)
    | Except.error e, Except.error f =>
      decidable_of_iff (e = f) ⟨fun h => by rw [h], fun h => by injection h⟩

/-! Association lists with Python dict semantics. -/

/-- Lookup in an insertion-ordered dict. -/
def alistGet {α : Type} (l : List (RKey × α)) (k : RKey) : Option α :=
  match l with
  | [] => Option.none
  | (k1, v) :: rest => if k1 = k then some v else alistGet rest k

/-- Membership in an insertion-ordered dict. -/
def alistHas {α : Type} (l : List (RKey × α)) (k : RKey) : Bool :=
  match l with
  | [] => false
  | (k1, _) :: rest => k1 = k || alistHas rest k

/-- Dict assignment: replace in place if the key is present, else append. -/
def alistSet {α : Type} (l : List (RKey × α)) (k : RKey) (v : α) : List (RKey × α) :=
  match l with
  | [] => [(k, v)]
  | (k1, v1) :: rest => if k1 = k then (k, v) :: rest else (k1, v1) :: alistSet rest k v

/-- Dict pop with a default: remove the key if present. -/
def alistPop {α : Type} (l : List (RKey × α)) (k : RKey) : List (RKey × α) :=
  match l with
  | [] => []
  | (k1, v1) :: rest => if k1 = k then rest else (k1, v1) :: alistPop rest k

/-- String-keyed dict lookup. -/
def slistGet {α : Type} (l : List (String × α)) (k : String) : Option α :=
  match l with
  | [] => Option.none
  | (k1, v) :: rest => if k1 = k then some v else slistGet rest k

/-- String-keyed dict membership. -/
def slistHas {α : Type} (l : List (String × α)) (k : String) : Bool :=
  match l with
  | [] => false
  | (k1, _) :: rest => k1 = k || slistHas rest k

/-- String-keyed dict assignment. -/
def slistSet {α : Type} (l : List (String × α)) (k : String) (v : α) : List (String × α) :=
  match l with
  | [] => [(k, v)]
  | (k1, v1) :: rest => if k1 = k then (k, v) :: rest else (k1, v1) :: slistSet rest k v

/-- String-keyed dict pop. -/
def slistPop {α : Type} (l : List (String × α)) (k : String) : List (String × α) :=
  match l with
  | [] => []
  | (k1, v1) :: rest => if k1 = k then rest else (k1, v1) :: slistPop rest k

/-- Python dict.update: assign every pair of the second dict in order. -/
def slistUpdateAll {α : Type} (l upd : List (String × α)) : List (String × α) :=
  upd.foldl (fun acc p => slistSet acc p.1 p.2) l

/-! Heap access. -/

/-- Point update of a Nat-indexed heap. -/
def updFn {α : Type} (f : Nat → α) (i : Nat) (a : α) : Nat → α :=
  fun j => if j = i then a else f j

def DiState.reg (s : DiState) (i : Nat) : RegisterState := s.registers i

def DiState.regy (s : DiState) (i : Nat) : RegistryState := s.registries i

def DiState.cont (s : DiState) (i : Nat) : ContainerState := s.containers i

def DiState.setRegister (s : DiState) (i : Nat) (r : RegisterState) : DiState :=
  { s with registers := updFn s.registers i r }

def DiState.setRegistry (s : DiState) (i : Nat) (r : RegistryState) : DiState :=
  { s with registries := updFn s.registries i r }

def DiState.setContainer (s : DiState) (i : Nat) (c : ContainerState) : DiState :=
  { s with containers := updFn s.containers i c }

/-! Registry chain lookup: _Registry overrides dunder contains and dunder
getitem to fall back to its sub-registries, searched in attachment order,
recursively. The recursion is bounded by a depth that suffices for every
acyclic registry graph. -/

/-- The overridden membership test of _Registry. -/
def registryContainsF : Nat → DiState → Nat → RKey → Bool
  | 0, _, _, _ => false
  | fuel+1, s, ri, k =>
      alistHas (s.regy ri).entries k ||
      (s.regy ri).subs.any (fun p => registryContainsF fuel s p.2 k)

/-- The overridden item lookup of _Registry: the local record if present,
else the first sub-registry containing the key is asked, else nothing. -/
def registryGetItemF : Nat → DiState → Nat → RKey → Option Nat
  | 0, _, _, _ => Option.none
  | fuel+1, s, ri, k =>
      match alistGet (s.regy ri).entries k with
      | some r => some r
      | Option.none =>
        match (s.regy ri).subs.find? (fun p => registryContainsF fuel s p.2 k) with
        | some p => registryGetItemF fuel s p.2 k
        | Option.none => Option.none

/-- Chain membership with a depth bound adequate for acyclic registry graphs. -/
def regChainHas (s : DiState) (ri : Nat) (k : RKey) : Bool :=
  registryContainsF (s.nRegistries + 1) s ri k

/-- Chain lookup with a depth bound adequate for acyclic registry graphs. -/
def regChainGet (s : DiState) (ri : Nat) (k : RKey) : Option Nat :=
  registryGetItemF (s.nRegistries + 1) s ri k

/-! Containers: creation, sub-container attachment and the cycle check. -/

/-- Container._check_for_circular_sub_containers: is dst reachable from src
through one or more sub-container links? Depth-first, as in the source. -/
def checkCircularF : Nat → DiState → Nat → Nat → Bool
  | 0, _, _, _ => false
  | fuel+1, s, src, dst =>
      (s.cont src).subContainers.any (fun p => p.2 = dst) ||
      (s.cont src).subContainers.any (fun p => checkCircularF fuel s p.2 dst)

/-- Reachability with a depth bound adequate for acyclic container graphs. -/
def containerReach (s : DiState) (src dst : Nat) : Bool :=
  checkCircularF (s.nContainers + 1) s src dst

/-- Container.add_sub_container: refuse if the parent is reachable from the
new child, else record the container link and attach the child registry as a
sub-registry. -/
def addSubContainerF (parent child : Nat) (s : DiState) : (Except DiErr Unit) × DiState :=
  if containerReach s child parent then
    (Except.error (DiErr.diContainerError "adding the sub container will create a circular chain of containers"), s)
  else
    let pc := s.cont parent
    let cc := s.cont child
    let s1 := s.setContainer parent { pc with subContainers := slistSet pc.subContainers cc.cname child }
    let pr := s1.regy pc.registry
    let cr := s1.regy cc.registry
    let s2 := s1.setRegistry pc.registry { pr with subs := slistSet pr.subs cr.rname cc.registry }
    (Except.ok (), s2)

/-- Container.remove_sub_container: dict.pop raises KeyError when absent. -/
def removeSubContainerF (parent : Nat) (nm : String) (s : DiState) : (Except DiErr Unit) × DiState :=
  let pc := s.cont parent
  if slistHas pc.subContainers nm then
    let s1 := s.setContainer parent { pc with subContainers := slistPop pc.subContainers nm }
    let pr := s1.regy pc.registry
    if slistHas pr.subs nm then
      (Except.ok (), s1.setRegistry pc.registry { pr with subs := slistPop pr.subs nm })
    else (Except.error (DiErr.keyError nm), s1)
  else (Except.error (DiErr.keyError nm), s)

/-- Container construction: a fresh registry and a fresh container owning it. -/
def newContainerF (nm : String) (pnab : Bool) (s : DiState) : Nat × DiState :=
  let ri := s.nRegistries
  let ci := s.nContainers
  let s1 := { s with
    registries := updFn s.registries ri { rname := nm, entries := [], subs := [] },
    nRegistries := ri + 1,
    containers := updFn s.containers ci
      { cname := nm, subContainers := [], registry := ri, paramNamesAsBindings := pnab },
    nContainers := ci + 1 }
  (ci, s1)

/-! Register records: creation and configuration. -/

/-- Allocate a fresh register record on the heap. -/
def allocRegisterF (r : RegisterState) (s : DiState) : Nat × DiState :=
  (s.nRegisters, { s with registers := updFn s.registers s.nRegisters r, nRegisters := s.nRegisters + 1 })

/-- Container.register_type: a fresh unbound TypeRegister. -/
def registerTypeF (ci : Nat) (t : Nat) (c : PyCallable) (i : Instantiation) (s : DiState) : Nat × DiState :=
  allocRegisterF
    { isValid := true, key := Option.none, registry := (s.cont ci).registry, inst := i,
      paramNamesAsBindings := (s.cont ci).paramNamesAsBindings,
      givenPositionalParams := [], givenKeywordParams := [],
      givenPositionalNameBindings := [], givenKeywordNameBindings := [],
      cachedInstance := Value.vnone, variant := RegisterVariant.typeReg t c } s

/-- Container.register_callable: a fresh unbound CallableRegister. -/
def registerCallableF (ci : Nat) (c : PyCallable) (i : Instantiation) (rt : Option Nat) (s : DiState) : Nat × DiState :=
  allocRegisterF
    { isValid := true, key := Option.none, registry := (s.cont ci).registry, inst := i,
      paramNamesAsBindings := (s.cont ci).paramNamesAsBindings,
      givenPositionalParams := [], givenKeywordParams := [],
      givenPositionalNameBindings := [], givenKeywordNameBindings := [],
      cachedInstance := Value.vnone, variant := RegisterVariant.callableReg c rt } s

/-- Container.register_value: a fresh unbound ValueRegister, Singleton, with
the value cached immediately at creation. -/
def registerValueF (ci : Nat) (v : Value) (s : DiState) : Nat × DiState :=
  allocRegisterF
    { isValid := true, key := Option.none, registry := (s.cont ci).registry,
      inst := Instantiation.singleton, paramNamesAsBindings := false,
      givenPositionalParams := [], givenKeywordParams := [],
      givenPositionalNameBindings := [], givenKeywordNameBindings := [],
      cachedInstance := v, variant := RegisterVariant.valueReg } s

/-- Is the record a ValueRegister? -/
def isValueVariant (r : RegisterState) : Bool :=
  match r.variant with
  | RegisterVariant.valueReg => true
  | _ => false

/-- Register._invalidate: clear the validity flag and pop the bound key from
the local registry dict (a no-op when unbound). -/
def invalidateF (rid : Nat) (s : DiState) : DiState :=
  let r := s.reg rid
  let s1 := s.setRegister rid { r with isValid := false }
  match r.key with
  | some k =>
    let ry := s1.regy r.registry
    s1.setRegistry r.registry { ry with entries := alistPop ry.entries k }
  | Option.none => s1

/-- Register._type_to_check: the exposed type of the record, if any. -/
def typeToCheckF (s : DiState) (rid : Nat) : Option Nat :=
  match (s.reg rid).variant with
  | RegisterVariant.callableReg _ rt => rt
  | RegisterVariant.typeReg t _ => some t
  | RegisterVariant.valueReg => some (s.env.typeOf (s.reg rid).cachedInstance)

/-- Register._factory_method: the producer; ValueRegister rejects it. -/
def factoryMethodF (s : DiState) (rid : Nat) : Except DiErr PyCallable :=
  match (s.reg rid).variant with
  | RegisterVariant.callableReg c _ => Except.ok c
  | RegisterVariant.typeReg _ c => Except.ok c
  | RegisterVariant.valueReg => Except.error (DiErr.diContainerError "operation not supported")

/-- Register._register_to_key: refuse a second binding, refuse an occupied
key without replace (the error text dereferences the name of the incumbent
exposed type, an AttributeError when it is absent), type-check the exposed
type, and only then insert into the local registry dict and set the key. -/
def registerToKeyF (rid : Nat) (k : RKey) (against : Nat) (replace : Bool) (s : DiState) : (Except DiErr Unit) × DiState :=
  let r := s.reg rid
  match r.key with
  | some _ => (Except.error (DiErr.diContainerError "already bound"), s)
  | Option.none =>
    if regChainHas s r.registry k && !replace then
      match regChainGet s r.registry k with
      | some old =>
        match typeToCheckF s old with
        | some _ => (Except.error (DiErr.valueError "key already bound and replace not requested"), s)
        | Option.none => (Except.error DiErr.attributeError, s)
      | Option.none => (Except.error DiErr.attributeError, s)
    else
      let commit : (Except DiErr Unit) × DiState :=
        let ry := s.regy r.registry
        let s1 := s.setRegistry r.registry { ry with entries := alistSet ry.entries k rid }
        let s2 := s1.setRegister rid { (s1.reg rid) with key := some k }
        (Except.ok (), s2)
      match typeToCheckF s rid with
      | some tc => if ! s.env.subclass tc against then (Except.error (DiErr.typeError "not a subclass"), s) else commit
      | Option.none => commit

/-- Register.to_type. -/
def toTypeF (rid : Nat) (t : Nat) (replace : Bool) (s : DiState) : (Except DiErr Unit) × DiState :=
  if !(s.reg rid).isValid then (Except.error (DiErr.diContainerError "not valid"), s)
  else registerToKeyF rid (RKey.typeKey t) t replace s

/-- Register.to_name. -/
def toNameF (rid : Nat) (nm : String) (baseType : Nat) (replace : Bool) (s : DiState) : (Except DiErr Unit) × DiState :=
  if !(s.reg rid).isValid then (Except.error (DiErr.diContainerError "not valid"), s)
  else registerToKeyF rid (RKey.nameKey nm) baseType replace s

/-- Register.with_params: ValueRegister rejects it; otherwise store the
positional values, run the mutual-exclusion check (which invalidates the
record before raising), then store the keyword values. -/
def withParamsF (rid : Nat) (pos : List Value) (kw : List (String × Value)) (s : DiState) : (Except DiErr Unit) × DiState :=
  match (s.reg rid).variant with
  | RegisterVariant.valueReg => (Except.error (DiErr.diContainerError "operation not supported"), s)
  | _ =>
    if !(s.reg rid).isValid then (Except.error (DiErr.diContainerError "not valid"), s)
    else
      let s1 := s.setRegister rid { (s.reg rid) with givenPositionalParams := pos }
      let r1 := s1.reg rid
      if !r1.givenPositionalParams.isEmpty && !r1.givenPositionalNameBindings.isEmpty then
        (Except.error (DiErr.diContainerError "cannot define both positional params and positional name bindings"),
         invalidateF rid s1)
      else
        (Except.ok (), s1.setRegister rid { r1 with givenKeywordParams := kw })

/-- Register.with_name_bindings: the mirror image of with_params. -/
def withNameBindingsF (rid : Nat) (pos : List RKey) (kw : List (String × RKey)) (s : DiState) : (Except DiErr Unit) × DiState :=
  match (s.reg rid).variant with
  | RegisterVariant.valueReg => (Except.error (DiErr.diContainerError "operation not supported"), s)
  | _ =>
    if !(s.reg rid).isValid then (Except.error (DiErr.diContainerError "not valid"), s)
    else
      let s1 := s.setRegister rid { (s.reg rid) with givenPositionalNameBindings := pos }
      let r1 := s1.reg rid
      if !r1.givenPositionalParams.isEmpty && !r1.givenPositionalNameBindings.isEmpty then
        (Except.error (DiErr.diContainerError "cannot define both positional params and positional name bindings"),
         invalidateF rid s1)
      else
        (Except.ok (), s1.setRegister rid { r1 with givenKeywordNameBindings := kw })

/-! The resolution algorithm (Register._resolve_param, _resolve_params,
_resolve, _resolve_recursive and resolve).

The only unbounded recursion is the nested call to _resolve_recursive; it is
abstracted as an oracle `recF` in the per-stage functions below and tied with
a fuel-indexed knot in `resolveRecursiveF`. Each stage result carries the
produced value(s), the accumulated error descriptions and the deque of
registers currently being resolved. -/

/-- Result of a single resolution stage: value, error list, deque. -/
abbrev RRes := (Except DiErr (Value × List String × List Nat)) × DiState

/-- The type of the nested-resolution oracle: register id, error list so far,
deque, prefer_defaults, state. -/
abbrev RecFun := Nat → List String → List Nat → Bool → DiState → RRes

/-- The declared positional parameters of a producer; for a type, the self
parameter of the constructor is dropped. -/
def declaredArgs (c : PyCallable) : List String :=
  if c.isType then c.spec.args.drop 1 else c.spec.args

/-- The tail of Register._resolve_param: when the value resolved so far is
None, fall back to using the parameter name as a registry key (when the
record allows it) and then to the declared default; record an unresolvable
error only when nothing applied. -/
def lastResortGo (recF : RecFun) (rid : Nat) (pname : String) (value : Value)
    (isResolved : Bool) (errors : List String) (deque : List Nat)
    (dflt : Option Value) (s : DiState) : RRes :=
  if value = Value.vnone then
    if (s.reg rid).paramNamesAsBindings && regChainHas s (s.reg rid).registry (RKey.nameKey pname) then
      match regChainGet s (s.reg rid).registry (RKey.nameKey pname) with
      | some rid2 => recF rid2 errors deque false s
      | Option.none => (Except.error DiErr.attributeError, s)
    else
      match dflt with
      | some d => (Except.ok (d, errors, deque), s)
      | Option.none =>
        if isResolved then (Except.ok (Value.vnone, errors, deque), s)
        else (Except.ok (Value.vnone, errors ++ ["unresolvable parameter " ++ pname], deque), s)
  else
    if isResolved then (Except.ok (value, errors, deque), s)
    else (Except.ok (value, errors ++ ["unresolvable parameter " ++ pname], deque), s)

/-- Register._resolve_param: explicit value, else explicit name binding
looked up through the registry chain (nested resolution with prefer_defaults
false), else the default in prefer-defaults mode, else the declared type
looked up through the chain (nested resolution with prefer_defaults false);
then the last-resort fallbacks. -/
def paramGo (recF : RecFun) (rid : Nat) (pname : String) (deque : List Nat)
    (given : Option Value) (nb : Option RKey) (dflt : Option Value)
    (pd : Bool) (ann : Option Nat) (s : DiState) : RRes :=
  match given with
  | some gv => lastResortGo recF rid pname gv true [] deque dflt s
  | Option.none =>
    match nb with
    | some b =>
      if regChainHas s (s.reg rid).registry b then
        match regChainGet s (s.reg rid).registry b with
        | some rid2 =>
          match recF rid2 [] deque false s with
          | (Except.ok (v, errs1, dq1), s1) => lastResortGo recF rid pname v true errs1 dq1 dflt s1
          | (Except.error e, s1) => (Except.error e, s1)
        | Option.none => (Except.error DiErr.attributeError, s)
      else lastResortGo recF rid pname Value.vnone false [] deque dflt s
    | Option.none =>
      match pd, dflt with
      | true, some d => lastResortGo recF rid pname d true [] deque dflt s
      | _, _ =>
        match ann with
        | some t =>
          if regChainHas s (s.reg rid).registry (RKey.typeKey t) then
            match regChainGet s (s.reg rid).registry (RKey.typeKey t) with
            | some rid2 =>
              match recF rid2 [] deque false s with
              | (Except.ok (v, errs1, dq1), s1) => lastResortGo recF rid pname v true errs1 dq1 dflt s1
              | (Except.error e, s1) => (Except.error e, s1)
            | Option.none => (Except.error DiErr.attributeError, s)
          else lastResortGo recF rid pname Value.vnone false [] deque dflt s
        | Option.none => lastResortGo recF rid pname Value.vnone false [] deque dflt s

/-- The loop of Register._resolve_params over the declared positional
parameters: for the i-th parameter take the i-th given positional value, else
the keyword value under its name; likewise for name bindings; the default is
matched from the end of the defaults list; the declared type comes from the
annotations dict. -/
def argsLoopGo (recF : RecFun) (rid : Nat) (rem : List String) (i : Nat)
    (posP : List Value) (kwP : List (String × Value))
    (posNB : List RKey) (kwNB : List (String × RKey))
    (nArgs : Nat) (defaults : List Value) (anns : List (String × Nat)) (pd : Bool)
    (deque : List Nat) (accV : List Value) (accE : List String) (s : DiState) :
    (Except DiErr (List Value × List String × List Nat)) × DiState :=
  match rem with
  | [] => (Except.ok (accV, accE, deque), s)
  | arg :: rest =>
    let given := match posP.get? i with
      | some v => some v
      | Option.none => slistGet kwP arg
    let nb := match posNB.get? i with
      | some b => some b
      | Option.none => slistGet kwNB arg
    let dflt := if nArgs ≤ i + defaults.length then defaults.get? (i + defaults.length - nArgs) else Option.none
    let ann := slistGet anns arg
    match paramGo recF rid arg deque given nb dflt pd ann s with
    | (Except.ok (v, perrs, dq1), s1) =>
      argsLoopGo recF rid rest (i+1) posP kwP posNB kwNB nArgs defaults anns pd dq1 (accV ++ [v]) (accE ++ perrs) s1
    | (Except.error e, s1) => (Except.error e, s1)

/-- The comprehension resolving excess positional name bindings: each binding
is looked up directly (an absent key dereferences None, an AttributeError)
and resolved with prefer_defaults false. -/
def varargNBLoopGo (recF : RecFun) (rid : Nat) (rem : List RKey)
    (deque : List Nat) (accV : List Value) (errs : List String) (s : DiState) :
    (Except DiErr (List Value × List String × List Nat)) × DiState :=
  match rem with
  | [] => (Except.ok (accV, errs, deque), s)
  | b :: rest =>
    match regChainGet s (s.reg rid).registry b with
    | Option.none => (Except.error DiErr.attributeError, s)
    | some rid2 =>
      match recF rid2 errs deque false s with
      | (Except.ok (v, errs1, dq1), s1) => varargNBLoopGo recF rid rest dq1 (accV ++ [v]) errs1 s1
      | (Except.error e, s1) => (Except.error e, s1)

/-- The vararg section of Register._resolve_params: excess positional values
are appended as-is when a variadic positional slot exists (else an error);
excess positional name bindings are resolved then appended (note the source
also appends the excess slice of the positional values first, an empty list
whenever the mutual-exclusion check has run). -/
def handleVarargsGo (recF : RecFun) (rid : Nat) (c : PyCallable)
    (argVals : List Value) (errs : List String) (deque : List Nat) (s : DiState) :
    (Except DiErr (List Value × List String × List Nat)) × DiState :=
  let args := declaredArgs c
  let r := s.reg rid
  if args.length < r.givenPositionalParams.length then
    if c.spec.varargs then
      (Except.ok (argVals ++ r.givenPositionalParams.drop args.length, errs, deque), s)
    else
      (Except.ok (argVals, errs ++ ["too many positional arguments given, or vararg is missing"], deque), s)
  else if args.length < r.givenPositionalNameBindings.length then
    if c.spec.varargs then
      let argVals1 := argVals ++ r.givenPositionalParams.drop args.length
      match varargNBLoopGo recF rid (r.givenPositionalNameBindings.drop args.length) deque [] errs s with
      | (Except.ok (vals, errs1, dq1), s1) => (Except.ok (argVals1 ++ vals, errs1, dq1), s1)
      | (Except.error e, s1) => (Except.error e, s1)
    else
      (Except.ok (argVals, errs ++ ["too many positional name bindings given, or vararg is missing"], deque), s)
  else (Except.ok (argVals, errs, deque), s)

/-- The loop of Register._resolve_params over keyword-only parameters. -/
def kwonlyLoopGo (recF : RecFun) (rid : Nat) (rem : List String)
    (kwP : List (String × Value)) (kwNB : List (String × RKey))
    (kwod : List (String × Value)) (anns : List (String × Nat)) (pd : Bool)
    (deque : List Nat) (accKw : List (String × Value)) (accE : List String) (s : DiState) :
    (Except DiErr (List (String × Value) × List String × List Nat)) × DiState :=
  match rem with
  | [] => (Except.ok (accKw, accE, deque), s)
  | kw :: rest =>
    let given := slistGet kwP kw
    let nb := slistGet kwNB kw
    let dflt := slistGet kwod kw
    let ann := slistGet anns kw
    match paramGo recF rid kw deque given nb dflt pd ann s with
    | (Except.ok (v, perrs, dq1), s1) =>
      kwonlyLoopGo recF rid rest kwP kwNB kwod anns pd dq1 (slistSet accKw kw v) (accE ++ perrs) s1
    | (Except.error e, s1) => (Except.error e, s1)

/-- The varkw section for unused explicit keyword values: if some given
keyword does not match a declared parameter, either all given keyword values
are merged into the keyword arguments (when a variadic keyword slot exists)
or an error is recorded. Pure, no resolution happens. -/
def handleUnusedKeywordsF (c : PyCallable) (r : RegisterState)
    (kwargVals : List (String × Value)) (errs : List String) :
    List (String × Value) × List String :=
  let args := declaredArgs c
  let unused := (r.givenKeywordParams.map Prod.fst).filter
    (fun k => !(args.contains k) && !(c.spec.kwonlyargs.contains k))
  if !unused.isEmpty then
    if c.spec.varkw then (slistUpdateAll kwargVals r.givenKeywordParams, errs)
    else (kwargVals, errs ++ ["the given keyword arguments are either wrong, or varkw is missing"])
  else (kwargVals, errs)

/-- The loop resolving keyword name bindings absorbed by the variadic keyword
slot: the source iterates over all given keyword name bindings, resolving
each as a parameter with only a name binding (no value, default or type). -/
def varkwNBLoopGo (recF : RecFun) (rid : Nat) (rem : List (String × RKey)) (pd : Bool)
    (deque : List Nat) (accKw : List (String × Value)) (accE : List String) (s : DiState) :
    (Except DiErr (List (String × Value) × List String × List Nat)) × DiState :=
  match rem with
  | [] => (Except.ok (accKw, accE, deque), s)
  | (kw, b) :: rest =>
    match paramGo recF rid kw deque Option.none (some b) Option.none pd Option.none s with
    | (Except.ok (v, perrs, dq1), s1) =>
      varkwNBLoopGo recF rid rest pd dq1 (slistSet accKw kw v) (accE ++ perrs) s1
    | (Except.error e, s1) => (Except.error e, s1)

/-- The varkw section for unused keyword name bindings. -/
def handleUnusedNBsGo (recF : RecFun) (rid : Nat) (c : PyCallable)
    (kwargVals : List (String × Value)) (errs : List String) (deque : List Nat)
    (pd : Bool) (s : DiState) :
    (Except DiErr (List (String × Value) × List String × List Nat)) × DiState :=
  let args := declaredArgs c
  let r := s.reg rid
  let unused := (r.givenKeywordNameBindings.map Prod.fst).filter
    (fun k => !(args.contains k) && !(c.spec.kwonlyargs.contains k))
  if !unused.isEmpty then
    if c.spec.varkw then varkwNBLoopGo recF rid r.givenKeywordNameBindings pd deque kwargVals errs s
    else (Except.ok (kwargVals, errs ++ ["the given name bindings are either wrong, or varkw is missing"], deque), s)
  else (Except.ok (kwargVals, errs, deque), s)

/-- Register._resolve_params: the positional loop, the vararg section, the
keyword-only loop, then the two varkw sections. -/
def paramsGo (recF : RecFun) (rid : Nat) (pd : Bool) (c : PyCallable)
    (deque : List Nat) (s : DiState) :
    (Except DiErr (List Value × List (String × Value) × List String × List Nat)) × DiState :=
  let args := declaredArgs c
  let r := s.reg rid
  match argsLoopGo recF rid args 0 r.givenPositionalParams r.givenKeywordParams
      r.givenPositionalNameBindings r.givenKeywordNameBindings
      args.length c.spec.defaults c.spec.anns pd deque [] [] s with
  | (Except.error e, s1) => (Except.error e, s1)
  | (Except.ok (argVals0, errs0, dq0), sA) =>
    match handleVarargsGo recF rid c argVals0 errs0 dq0 sA with
    | (Except.error e, s1) => (Except.error e, s1)
    | (Except.ok (argVals1, errs1, dq1), sB) =>
      let rB := sB.reg rid
      match kwonlyLoopGo recF rid c.spec.kwonlyargs rB.givenKeywordParams
          rB.givenKeywordNameBindings c.spec.kwonlydefaults c.spec.anns pd dq1 [] errs1 sB with
      | (Except.error e, s1) => (Except.error e, s1)
      | (Except.ok (kwargVals0, errs2, dq2), sC) =>
        let p := handleUnusedKeywordsF c (sC.reg rid) kwargVals0 errs2
        match handleUnusedNBsGo recF rid c p.1 p.2 dq2 pd sC with
        | (Except.error e, s1) => (Except.error e, s1)
        | (Except.ok (kwargVals1, errs3, dq3), sD) => (Except.ok (argVals1, kwargVals1, errs3, dq3), sD)

/-- Register._resolve: fetch the producer (ValueRegister raises); a record
already on the deque yields None with a circular-dependency error and no
recursion; otherwise push self, resolve the parameters, raise an aggregated
error when any parameter failed, else invoke the producer (logging the
invocation and consuming a fresh object id) and pop self. -/
def oneGo (recF : RecFun) (rid : Nat) (deque : List Nat) (pd : Bool) (s : DiState) : RRes :=
  match factoryMethodF s rid with
  | Except.error e => (Except.error e, s)
  | Except.ok c =>
    if deque.contains rid then
      (Except.ok (Value.vnone, ["circular dependency involving " ++ c.cname], deque), s)
    else
      let deque1 := deque ++ [rid]
      match paramsGo recF rid pd c deque1 s with
      | (Except.ok (argVals, kwargVals, errs, dq2), s1) =>
        if !errs.isEmpty then
          (Except.error (DiErr.diContainerError ("errors while trying to resolve parameters for " ++ c.cname)), s1)
        else
          let v := c.construct argVals kwargVals s1.nextObjId
          let s2 := { s1 with nextObjId := s1.nextObjId + 1, log := s1.log ++ [(rid, v)] }
          (Except.ok (v, [], dq2.dropLast), s2)
      | (Except.error e, s1) => (Except.error e, s1)

/-- Register._resolve_recursive: recompute when no cached instance exists or
the policy is MultiInstance, store the result in the cached-instance field
and return the field; otherwise return the cached instance directly. -/
def recursiveGo (recF : RecFun) (rid : Nat) (errors : List String)
    (deque : List Nat) (pd : Bool) (s : DiState) : RRes :=
  if (s.reg rid).cachedInstance = Value.vnone || (s.reg rid).inst = Instantiation.multiInstance then
    match oneGo recF rid deque pd s with
    | (Except.ok (v, subErrs, dq), s1) =>
      let s2 := s1.setRegister rid { (s1.reg rid) with cachedInstance := v }
      (Except.ok ((s2.reg rid).cachedInstance, errors ++ subErrs, dq), s2)
    | (Except.error e, s1) => (Except.error e, s1)
  else (Except.ok ((s.reg rid).cachedInstance, errors, deque), s)

/-- The fuel-indexed knot: each nesting level of _resolve_recursive consumes
one unit of fuel. -/
def resolveRecursiveF : Nat → Nat → List String → List Nat → Bool → DiState → RRes
  | 0, _, _, _, _, s => (Except.error DiErr.fuelExhausted, s)
  | fuel+1, rid, errors, deque, pd, s =>
      recursiveGo (resolveRecursiveF fuel) rid errors deque pd s

/-- Register.resolve: validity check, then _resolve_recursive with a fresh
error list and a fresh deque; only the value is returned. -/
def resolveF (fuel : Nat) (rid : Nat) (pd : Bool) (s : DiState) : (Except DiErr Value) × DiState :=
  if !(s.reg rid).isValid then (Except.error (DiErr.diContainerError "not valid"), s)
  else
    match resolveRecursiveF fuel rid [] [] pd s with
    | (Except.ok (v, _, _), s1) => (Except.ok v, s1)
    | (Except.error e, s1) => (Except.error e, s1)

/-- Container._resolve: the source fetches the record with dict.get on the
registry; on a dict subclass dict.get reads the built-in local mapping only
and does not dispatch to the overridden chain lookup, so only the local
entries are consulted here. An absent key raises the unknown-key ValueError
naming the container. -/
def containerResolveF (fuel : Nat) (ci : Nat) (k : RKey) (pd : Bool) (s : DiState) : (Except DiErr Value) × DiState :=
  match alistGet (s.regy (s.cont ci).registry).entries k with
  | Option.none => (Except.error (DiErr.valueError "key is not registered in this container"), s)
  | some rid => resolveF fuel rid pd s

/-- Container.resolve_type. -/
def resolveTypeF (fuel : Nat) (ci : Nat) (t : Nat) (pd : Bool) (s : DiState) : (Except DiErr Value) × DiState :=
  containerResolveF fuel ci (RKey.typeKey t) pd s

/-- Container.resolve_name. -/
def resolveNameF (fuel : Nat) (ci : Nat) (nm : String) (pd : Bool) (s : DiState) : (Except DiErr Value) × DiState :=
  containerResolveF fuel ci (RKey.nameKey nm) pd s

/-- One state extends another when its producer-invocation log appends to it. -/
def logExtends (s1 s2 : DiState) : Prop := ∃ t, s2.log = s1.log ++ t

/-! Concrete worlds used to evaluate the model on closed inputs. -/

/-- A small type universe: every type id is a subclass of itself and of the
object type (id 0); ids 1, 2, 3 are the types of None, int and str. -/
def envW : PyEnv := { subclass := fun a b => a == b || b == 0, noneTypeId := 1, intTypeId := 2, strTypeId := 3 }

/-- The empty world: no containers, registries or registers allocated; the
heaps default to an invalid register, an empty registry and an empty
container. -/
def sInit : DiState :=
  { env := envW,
    registers := fun _ =>
      { isValid := false, key := Option.none, registry := 0, inst := Instantiation.singleton,
        paramNamesAsBindings := false, givenPositionalParams := [], givenKeywordParams := [],
        givenPositionalNameBindings := [], givenKeywordNameBindings := [],
        cachedInstance := Value.vnone, variant := RegisterVariant.valueReg },
    nRegisters := 0,
    registries := fun _ => { rname := "", entries := [], subs := [] },
    nRegistries := 0,
    containers := fun _ => { cname := "", subContainers := [], registry := 0, paramNamesAsBindings := true },
    nContainers := 0,
    nextObjId := 0, log := [] }

/-- A is an argumentless factory producing a fresh object of type 100. -/
def mkA : PyCallable :=
  { cname := "mkA", isType := false,
    spec := { args := [], varargs := false, varkw := false, defaults := [],
              kwonlyargs := [], kwonlydefaults := [], anns := [] },
    construct := fun _ _ oid => Value.vobj 100 oid }

/-- B is an argumentless factory producing a fresh object of type 200. -/
def mkB : PyCallable :=
  { cname := "mkB", isType := false,
    spec := { args := [], varargs := false, varkw := false, defaults := [],
              kwonlyargs := [], kwonlydefaults := [], anns := [] },
    construct := fun _ _ oid => Value.vobj 200 oid }

/-- A factory with a single parameter x that returns the value it received. -/
def echoC : PyCallable :=
  { cname := "echo", isType := false,
    spec := { args := ["x"], varargs := false, varkw := false, defaults := [],
              kwonlyargs := [], kwonlydefaults := [], anns := [] },
    construct := fun args _ _ => args.headD (Value.vstr "missing") }

/-- An argumentless factory that returns None. -/
def retNoneC : PyCallable :=
  { cname := "retNone", isType := false,
    spec := { args := [], varargs := false, varkw := false, defaults := [],
              kwonlyargs := [], kwonlydefaults := [], anns := [] },
    construct := fun _ _ _ => Value.vnone }

/-- An argumentless factory producing a fresh object of type 300. -/
def freshC : PyCallable :=
  { cname := "fresh", isType := false,
    spec := { args := [], varargs := false, varkw := false, defaults := [],
              kwonlyargs := [], kwonlydefaults := [], anns := [] },
    construct := fun _ _ oid => Value.vobj 300 oid }

/-- A fully variadic factory. -/
def varfC : PyCallable :=
  { cname := "varf", isType := false,
    spec := { args := [], varargs := true, varkw := true, defaults := [],
              kwonlyargs := [], kwonlydefaults := [], anns := [] },
    construct := fun _ _ oid => Value.vobj 400 oid }

/-- Scenario 1 (sub-container lookup): the value 42 is registered to the name
k only in the sub container, which is then attached to the main container. -/
def sc1m : Nat × DiState := newContainerF "main" true sInit

def sc1s : Nat × DiState := newContainerF "sub" true sc1m.2

def sc1r : Nat × DiState := registerValueF sc1s.1 (Value.vint 42) sc1s.2

def sc1b : DiState := (toNameF sc1r.1 "k" 0 false sc1r.2).2

def sc1 : DiState := (addSubContainerF sc1m.1 sc1s.1 sc1b).2

/-- Scenario 2 (Singleton producing None): a Singleton callable record whose
producer returns None, bound to the name n. -/
def sc2m : Nat × DiState := newContainerF "main" true sInit

def sc2r : Nat × DiState := registerCallableF sc2m.1 retNoneC Instantiation.singleton Option.none sc2m.2

def sc2 : DiState := (toNameF sc2r.1 "n" 0 false sc2r.2).2

/-- Scenario 3 (explicit None value): value 7 is bound to the name x; the
echo factory is bound to the name g with the explicit keyword value x=None. -/
def sc3m : Nat × DiState := newContainerF "main" true sInit

def sc3v : Nat × DiState := registerValueF sc3m.1 (Value.vint 7) sc3m.2

def sc3vb : DiState := (toNameF sc3v.1 "x" 0 false sc3v.2).2

def sc3g : Nat × DiState := registerCallableF sc3m.1 echoC Instantiation.singleton Option.none sc3vb

def sc3gb : DiState := (toNameF sc3g.1 "g" 0 false sc3g.2).2

def sc3 : DiState := (withParamsF sc3g.1 [] [("x", Value.vnone)] sc3gb).2

/-- Scenario 4 (replacement): mkA is bound to the name k, then mkB is bound
to the same key with replace. sc4pre is the state just before the replacing
bind. -/
def sc4m : Nat × DiState := newContainerF "main" true sInit

def sc4r1 : Nat × DiState := registerCallableF sc4m.1 mkA Instantiation.singleton Option.none sc4m.2

def sc4b1 : DiState := (toNameF sc4r1.1 "k" 0 false sc4r1.2).2

def sc4r2 : Nat × DiState := registerCallableF sc4m.1 mkB Instantiation.singleton Option.none sc4b1

def sc4pre : DiState := sc4r2.2

def sc4 : DiState := (toNameF sc4r2.1 "k" 0 true sc4r2.2).2

/-- Scenario 5 (self attachment): a single fresh container. -/
def sc5 : Nat × DiState := newContainerF "c" true sInit

/-- Scenario 5b (a genuine cycle attempt): container a with sub-container b. -/
def sc5a : Nat × DiState := newContainerF "a" true sInit

def sc5bC : Nat × DiState := newContainerF "b" true sc5a.2

def sc5ab : DiState := (addSubContainerF sc5a.1 sc5bC.1 sc5bC.2).2

/-- Scenario 6 (MultiInstance): a MultiInstance callable record bound to the
name m. -/
def sc6m : Nat × DiState := newContainerF "main" true sInit

def sc6r : Nat × DiState := registerCallableF sc6m.1 freshC Instantiation.multiInstance Option.none sc6m.2

def sc6 : DiState := (toNameF sc6r.1 "m" 0 false sc6r.2).2

/-- Scenario 8 (type mismatch at bind time): an unbound ValueRegister holding
the string 1234, about to be bound to the int type. -/
def sc8m : Nat × DiState := newContainerF "main" true sInit

def sc8r : Nat × DiState := registerValueF sc8m.1 (Value.vstr "1234") sc8m.2

/-- Scenario 9 (both positional kinds): a variadic callable bound to the name
v that already has a positional explicit value. -/
def sc9m : Nat × DiState := newContainerF "main" true sInit

def sc9r : Nat × DiState := registerCallableF sc9m.1 varfC Instantiation.singleton Option.none sc9m.2

def sc9b : DiState := (toNameF sc9r.1 "v" 0 false sc9r.2).2

def sc9 : DiState := (withParamsF sc9r.1 [Value.vint 1] [] sc9b).2

/-- Scenario W (cached singleton): a ValueRegister holding 7, for the cache
hit witness. -/
def scwm : Nat × DiState := newContainerF "main" true sInit

def scwr : Nat × DiState := registerValueF scwm.1 (Value.vint 7) scwm.2

def scw : DiState := scwr.2

/-! Helper lemmas: heap updates, association lists, log extension. -/

@[simp]
theorem updFn_self {α : Type} (f : Nat → α) (i : Nat) (a : α) : updFn f i a i = a := by
  simp [updFn]

theorem updFn_ne {α : Type} (f : Nat → α) (i j : Nat) (a : α) (h : j ≠ i) : updFn f i a j = f j := by
  simp [updFn, h]

@[simp]
theorem reg_setRegister_self (s : DiState) (i : Nat) (r : RegisterState) :
    (s.setRegister i r).reg i = r := by
  simp [DiState.setRegister, DiState.reg]

theorem reg_setRegister_ne (s : DiState) (i j : Nat) (r : RegisterState) (h : j ≠ i) :
    (s.setRegister i r).reg j = s.reg j := by
  simp [DiState.setRegister, DiState.reg, updFn, h]

@[simp]
theorem regy_setRegister (s : DiState) (i j : Nat) (r : RegisterState) :
    (s.setRegister i r).regy j = s.regy j := rfl

@[simp]
theorem cont_setRegister (s : DiState) (i j : Nat) (r : RegisterState) :
    (s.setRegister i r).cont j = s.cont j := rfl

@[simp]
theorem log_setRegister (s : DiState) (i : Nat) (r : RegisterState) :
    (s.setRegister i r).log = s.log := rfl

@[simp]
theorem regy_setRegistry_self (s : DiState) (i : Nat) (r : RegistryState) :
    (s.setRegistry i r).regy i = r := by
  simp [DiState.setRegistry, DiState.regy]

theorem regy_setRegistry_ne (s : DiState) (i j : Nat) (r : RegistryState) (h : j ≠ i) :
    (s.setRegistry i r).regy j = s.regy j := by
  simp [DiState.setRegistry, DiState.regy, updFn, h]

@[simp]
theorem reg_setRegistry (s : DiState) (i j : Nat) (r : RegistryState) :
    (s.setRegistry i r).reg j = s.reg j := rfl

@[simp]
theorem log_setRegistry (s : DiState) (i : Nat) (r : RegistryState) :
    (s.setRegistry i r).log = s.log := rfl

@[simp]
theorem nRegistries_setRegister (s : DiState) (i : Nat) (r : RegisterState) :
    (s.setRegister i r).nRegistries = s.nRegistries := rfl

@[simp]
theorem nRegistries_setRegistry (s : DiState) (i : Nat) (r : RegistryState) :
    (s.setRegistry i r).nRegistries = s.nRegistries := rfl

theorem alistGet_alistSet_self {α : Type} (l : List (RKey × α)) (k : RKey) (v : α) :
    alistGet (alistSet l k v) k = some v := by
  induction l with
  | nil => simp [alistSet, alistGet]
  | cons p rest ih =>
    by_cases h : p.1 = k
    · simp [alistSet, alistGet, h]
    · simp [alistSet, alistGet, h, ih]

theorem alistGet_eq_none_of_not_mem {α : Type} (l : List (RKey × α)) (k : RKey)
    (h : k ∉ l.map Prod.fst) : alistGet l k = Option.none := by
  induction l with
  | nil => simp [alistGet]
  | cons p rest ih =>
    simp only [List.map_cons, List.mem_cons, not_or] at h
    have h1 : p.1 ≠ k := fun he => h.1 he.symm
    simp [alistGet, h1, ih h.2]

theorem alistGet_alistPop_self {α : Type} (l : List (RKey × α)) (k : RKey)
    (h : (l.map Prod.fst).Nodup) : alistGet (alistPop l k) k = Option.none := by
  induction l with
  | nil => simp [alistPop, alistGet]
  | cons p rest ih =>
    simp only [List.map_cons, List.nodup_cons] at h
    by_cases hk : p.1 = k
    · simp only [alistPop, hk, if_true]
      exact alistGet_eq_none_of_not_mem rest k (hk ▸ h.1)
    · simp [alistPop, alistGet, hk, ih h.2]

theorem logExtends_refl (s : DiState) : logExtends s s := ⟨[], by simp⟩

theorem logExtends_trans {a b c : DiState} (h1 : logExtends a b) (h2 : logExtends b c) :
    logExtends a c := by
  obtain ⟨t1, e1⟩ := h1
  obtain ⟨t2, e2⟩ := h2
  exact ⟨t1 ++ t2, by rw [e2, e1, List.append_assoc]⟩

theorem logExtends_of_log_eq {a b : DiState} (h : b.log = a.log) : logExtends a b :=
  ⟨[], by simp [h]⟩

theorem logExtends_of_match {X : Type} {s s1 : DiState} {e : X × DiState} {x : X}
    (hx : logExtends s e.2) (heq : e = (x, s1)) : logExtends s s1 := by
  rw [heq] at hx
  exact hx

/-- Every resolution stage only appends to the producer-invocation log. -/
def RecPreserves (recF : RecFun) : Prop :=
  ∀ r e dq pd s, logExtends s (recF r e dq pd s).2

theorem lastResortGo_logExt (recF : RecFun) (hrec : RecPreserves recF)
    (rid : Nat) (pname : String) (value : Value) (isResolved : Bool) (errors : List String)
    (deque : List Nat) (dflt : Option Value) (s : DiState) :
    logExtends s (lastResortGo recF rid pname value isResolved errors deque dflt s).2 := by
  unfold lastResortGo
  repeat' split
  all_goals first
    | exact hrec _ _ _ _ _
    | exact logExtends_refl _

theorem paramGo_logExt (recF : RecFun) (hrec : RecPreserves recF)
    (rid : Nat) (pname : String) (deque : List Nat) (given : Option Value) (nb : Option RKey)
    (dflt : Option Value) (pd : Bool) (ann : Option Nat) (s : DiState) :
    logExtends s (paramGo recF rid pname deque given nb dflt pd ann s).2 := by
  unfold paramGo
  repeat' split
  all_goals first
    | exact lastResortGo_logExt recF hrec _ _ _ _ _ _ _ _
    | exact logExtends_refl _
    | (rename_i heq
       exact logExtends_trans (logExtends_of_match (hrec _ _ _ _ _) heq)
         (lastResortGo_logExt recF hrec _ _ _ _ _ _ _ _))
    | (rename_i heq; exact logExtends_of_match (hrec _ _ _ _ _) heq)

theorem argsLoopGo_logExt (recF : RecFun) (hrec : RecPreserves recF) (rid : Nat) :
    ∀ (rem : List String) (i : Nat) (posP : List Value) (kwP : List (String × Value))
      (posNB : List RKey) (kwNB : List (String × RKey)) (nArgs : Nat) (defaults : List Value)
      (anns : List (String × Nat)) (pd : Bool) (deque : List Nat) (accV : List Value)
      (accE : List String) (s : DiState),
      logExtends s (argsLoopGo recF rid rem i posP kwP posNB kwNB nArgs defaults anns pd deque accV accE s).2 := by
  intro rem
  induction rem with
  | nil =>
    intro i posP kwP posNB kwNB nArgs defaults anns pd deque accV accE s
    exact logExtends_refl _
  | cons arg rest ih =>
    intro i posP kwP posNB kwNB nArgs defaults anns pd deque accV accE s
    simp only [argsLoopGo]
    split
    · rename_i v perrs dq1 s1 heq
      exact logExtends_trans
        (logExtends_of_match (paramGo_logExt recF hrec rid arg deque _ _ _ pd _ s) heq)
        (ih _ _ _ _ _ _ _ _ _ _ _ _ _)
    · rename_i e s1 heq
      exact logExtends_of_match (paramGo_logExt recF hrec rid arg deque _ _ _ pd _ s) heq

theorem varargNBLoopGo_logExt (recF : RecFun) (hrec : RecPreserves recF) (rid : Nat) :
    ∀ (rem : List RKey) (deque : List Nat) (accV : List Value) (errs : List String) (s : DiState),
      logExtends s (varargNBLoopGo recF rid rem deque accV errs s).2 := by
  intro rem
  induction rem with
  | nil => intro deque accV errs s; exact logExtends_refl _
  | cons b rest ih =>
    intro deque accV errs s
    simp only [varargNBLoopGo]
    split
    · exact logExtends_refl _
    · rename_i rid2 heq2
      split
      · rename_i v errs1 dq1 s1 heq
        exact logExtends_trans (logExtends_of_match (hrec _ _ _ _ _) heq) (ih _ _ _ _)
      · rename_i e s1 heq
        exact logExtends_of_match (hrec _ _ _ _ _) heq

theorem handleVarargsGo_logExt (recF : RecFun) (hrec : RecPreserves recF)
    (rid : Nat) (c : PyCallable) (argVals : List Value) (errs : List String)
    (deque : List Nat) (s : DiState) :
    logExtends s (handleVarargsGo recF rid c argVals errs deque s).2 := by
  simp only [handleVarargsGo]
  repeat' split
  all_goals first
    | exact logExtends_refl _
    | (rename_i heq; exact logExtends_of_match (varargNBLoopGo_logExt recF hrec rid _ _ _ _ _) heq)

theorem kwonlyLoopGo_logExt (recF : RecFun) (hrec : RecPreserves recF) (rid : Nat) :
    ∀ (rem : List String) (kwP : List (String × Value)) (kwNB : List (String × RKey))
      (kwod : List (String × Value)) (anns : List (String × Nat)) (pd : Bool)
      (deque : List Nat) (accKw : List (String × Value)) (accE : List String) (s : DiState),
      logExtends s (kwonlyLoopGo recF rid rem kwP kwNB kwod anns pd deque accKw accE s).2 := by
  intro rem
  induction rem with
  | nil => intro kwP kwNB kwod anns pd deque accKw accE s; exact logExtends_refl _
  | cons kw rest ih =>
    intro kwP kwNB kwod anns pd deque accKw accE s
    simp only [kwonlyLoopGo]
    split
    · rename_i v perrs dq1 s1 heq
      exact logExtends_trans
        (logExtends_of_match (paramGo_logExt recF hrec rid kw deque _ _ _ pd _ s) heq)
        (ih _ _ _ _ _ _ _ _ _)
    · rename_i e s1 heq
      exact logExtends_of_match (paramGo_logExt recF hrec rid kw deque _ _ _ pd _ s) heq

theorem varkwNBLoopGo_logExt (recF : RecFun) (hrec : RecPreserves recF) (rid : Nat) :
    ∀ (rem : List (String × RKey)) (pd : Bool) (deque : List Nat)
      (accKw : List (String × Value)) (accE : List String) (s : DiState),
      logExtends s (varkwNBLoopGo recF rid rem pd deque accKw accE s).2 := by
  intro rem
  induction rem with
  | nil => intro pd deque accKw accE s; exact logExtends_refl _
  | cons p rest ih =>
    intro pd deque accKw accE s
    simp only [varkwNBLoopGo]
    split
    · rename_i v perrs dq1 s1 heq
      exact logExtends_trans
        (logExtends_of_match (paramGo_logExt recF hrec rid p.1 deque _ _ _ pd _ s) heq)
        (ih _ _ _ _ _)
    · rename_i e s1 heq
      exact logExtends_of_match (paramGo_logExt recF hrec rid p.1 deque _ _ _ pd _ s) heq

theorem handleUnusedNBsGo_logExt (recF : RecFun) (hrec : RecPreserves recF)
    (rid : Nat) (c : PyCallable) (kwargVals : List (String × Value)) (errs : List String)
    (deque : List Nat) (pd : Bool) (s : DiState) :
    logExtends s (handleUnusedNBsGo recF rid c kwargVals errs deque pd s).2 := by
  simp only [handleUnusedNBsGo]
  repeat' split
  all_goals first
    | exact logExtends_refl _
    | exact varkwNBLoopGo_logExt recF hrec rid _ _ _ _ _ _

theorem paramsGo_logExt (recF : RecFun) (hrec : RecPreserves recF)
    (rid : Nat) (pd : Bool) (c : PyCallable) (deque : List Nat) (s : DiState) :
    logExtends s (paramsGo recF rid pd c deque s).2 := by
  simp only [paramsGo]
  split
  · rename_i e s1 heq
    exact logExtends_of_match (argsLoopGo_logExt recF hrec rid _ _ _ _ _ _ _ _ _ _ _ _ _ _) heq
  · rename_i argVals0 errs0 dq0 sA heqA
    have hA : logExtends s sA :=
      logExtends_of_match (argsLoopGo_logExt recF hrec rid _ _ _ _ _ _ _ _ _ _ _ _ _ _) heqA
    split
    · rename_i e s1 heq
      exact logExtends_trans hA
        (logExtends_of_match (handleVarargsGo_logExt recF hrec rid c _ _ _ _) heq)
    · rename_i argVals1 errs1 dq1 sB heqB
      have hB : logExtends s sB :=
        logExtends_trans hA
          (logExtends_of_match (handleVarargsGo_logExt recF hrec rid c _ _ _ _) heqB)
      split
      · rename_i e s1 heq
        exact logExtends_trans hB
          (logExtends_of_match (kwonlyLoopGo_logExt recF hrec rid _ _ _ _ _ _ _ _ _ _) heq)
      · rename_i kwargVals0 errs2 dq2 sC heqC
        have hC : logExtends s sC :=
          logExtends_trans hB
            (logExtends_of_match (kwonlyLoopGo_logExt recF hrec rid _ _ _ _ _ _ _ _ _ _) heqC)
        split
        · rename_i e s1 heq
          exact logExtends_trans hC
            (logExtends_of_match (handleUnusedNBsGo_logExt recF hrec rid c _ _ _ _ _) heq)
        · rename_i kwargVals1 errs3 dq3 sD heqD
          exact logExtends_trans hC
            (logExtends_of_match (handleUnusedNBsGo_logExt recF hrec rid c _ _ _ _ _) heqD)

theorem oneGo_logExt (recF : RecFun) (hrec : RecPreserves recF)
    (rid : Nat) (deque : List Nat) (pd : Bool) (s : DiState) :
    logExtends s (oneGo recF rid deque pd s).2 := by
  simp only [oneGo]
  split
  · exact logExtends_refl _
  · rename_i c hc
    split
    · exact logExtends_refl _
    · split
      · rename_i argVals kwargVals errs dq2 s1 heq
        have h1 : logExtends s s1 :=
          logExtends_of_match (paramsGo_logExt recF hrec rid pd c _ s) heq
        split
        · exact h1
        · exact logExtends_trans h1 ⟨[(rid, c.construct argVals kwargVals s1.nextObjId)], rfl⟩
      · rename_i e s1 heq
        exact logExtends_of_match (paramsGo_logExt recF hrec rid pd c _ s) heq

theorem recursiveGo_logExt (recF : RecFun) (hrec : RecPreserves recF)
    (rid : Nat) (errors : List String) (deque : List Nat) (pd : Bool) (s : DiState) :
    logExtends s (recursiveGo recF rid errors deque pd s).2 := by
  unfold recursiveGo
  split
  · split
    · rename_i v subErrs dq s1 heq
      exact logExtends_trans (logExtends_of_match (oneGo_logExt recF hrec rid deque pd s) heq)
        (logExtends_of_log_eq (log_setRegister _ _ _))
    · rename_i e s1 heq
      exact logExtends_of_match (oneGo_logExt recF hrec rid deque pd s) heq
  · exact logExtends_refl _

theorem resolveRecursiveF_logExt : ∀ fuel, RecPreserves (resolveRecursiveF fuel) := by
  intro fuel
  induction fuel with
  | zero => intro r e dq pd s; exact logExtends_refl _
  | succ f ih =>
    intro r e dq pd s
    exact recursiveGo_logExt (resolveRecursiveF f) ih r e dq pd s

/-! Prefer-defaults independence of name-binding resolution. -/

theorem paramGo_nb_pd_irrelevant (recF : RecFun) (rid : Nat) (pname : String)
    (deque : List Nat) (b : RKey) (dflt : Option Value) (pd : Bool) (ann : Option Nat)
    (s : DiState) :
    paramGo recF rid pname deque Option.none (some b) dflt pd ann s
      = paramGo recF rid pname deque Option.none (some b) dflt false ann s := rfl

theorem varkwNBLoopGo_pd_irrelevant (recF : RecFun) (rid : Nat) :
    ∀ (rem : List (String × RKey)) (pd : Bool) (deque : List Nat)
      (accKw : List (String × Value)) (accE : List String) (s : DiState),
      varkwNBLoopGo recF rid rem pd deque accKw accE s
        = varkwNBLoopGo recF rid rem false deque accKw accE s := by
  intro rem
  induction rem with
  | nil => intro pd deque accKw accE s; rfl
  | cons p rest ih =>
    intro pd deque accKw accE s
    obtain ⟨kw, b⟩ := p
    simp only [varkwNBLoopGo]
    rw [paramGo_nb_pd_irrelevant]
    cases h : paramGo recF rid kw deque Option.none (some b) Option.none false Option.none s with
    | mk exc s1 =>
      cases exc with
      | ok val =>
        obtain ⟨v, perrs, dq1⟩ := val
        exact ih _ _ _ _ _
      | error e => rfl

/-- C7: every nested recursive resolution triggered by a name-binding runs
with preferDefaults forced to false: the outcome of resolving a parameter
that carries an explicit name-binding does not depend on the outer
prefer_defaults flag, both for name-bindings matched to declared parameters
(by position or keyword, first conjunct) and for excess keyword name-bindings
absorbed by the variadic keyword slot (second conjunct). -/
theorem c7_nested_name_binding_forces_prefer_defaults_false :
    (∀ fuel rid pname deque b dflt pd ann s,
        paramGo (resolveRecursiveF fuel) rid pname deque Option.none (some b) dflt pd ann s
          = paramGo (resolveRecursiveF fuel) rid pname deque Option.none (some b) dflt false ann s)
    ∧ (∀ fuel rid rem pd deque accKw accE s,
        varkwNBLoopGo (resolveRecursiveF fuel) rid rem pd deque accKw accE s
          = varkwNBLoopGo (resolveRecursiveF fuel) rid rem false deque accKw accE s) :=
  ⟨fun fuel rid pname deque b dflt pd ann s =>
      paramGo_nb_pd_irrelevant (resolveRecursiveF fuel) rid pname deque b dflt pd ann s,
   fun fuel rid rem pd deque accKw accE s =>
      varkwNBLoopGo_pd_irrelevant (resolveRecursiveF fuel) rid rem pd deque accKw accE s⟩

/-- C10: a declared parameter whose explicit name-binding points at a key
absent from the registry chain reports no error for the binding itself: the
resolution falls through to the last-resort strategies (parameter name as
key, then declared default), and the unresolvable-parameter error is recorded
only when those fail as well. -/
theorem c10_absent_name_binding_falls_through :
    ∀ fuel rid pname deque b dflt pd ann s,
      regChainHas s (s.reg rid).registry b = false →
      (paramGo (resolveRecursiveF fuel) rid pname deque Option.none (some b) dflt pd ann s
         = lastResortGo (resolveRecursiveF fuel) rid pname Value.vnone false [] deque dflt s)
      ∧ (((s.reg rid).paramNamesAsBindings && regChainHas s (s.reg rid).registry (RKey.nameKey pname)) = false →
          (∀ d, dflt = some d →
            paramGo (resolveRecursiveF fuel) rid pname deque Option.none (some b) dflt pd ann s
              = (Except.ok (d, [], deque), s))
          ∧ (dflt = Option.none →
            paramGo (resolveRecursiveF fuel) rid pname deque Option.none (some b) dflt pd ann s
              = (Except.ok (Value.vnone, ["unresolvable parameter " ++ pname], deque), s))) := by
  intro fuel rid pname deque b dflt pd ann s hb
  have h1 : paramGo (resolveRecursiveF fuel) rid pname deque Option.none (some b) dflt pd ann s
      = lastResortGo (resolveRecursiveF fuel) rid pname Value.vnone false [] deque dflt s := by
    simp only [paramGo, hb, Bool.false_eq_true, if_false]
  refine ⟨h1, fun hnk => ⟨?_, ?_⟩⟩
  · intro d hd
    subst hd
    rw [h1]
    simp [lastResortGo, hnk]
  · intro hd
    subst hd
    rw [h1]
    simp [lastResortGo, hnk]

/-- C10 witness: with an absent binding key, no fallback lookup for the
parameter name and a declared default 9, the parameter resolves to 9 with no
error and no state change. -/
theorem c10_witness :
    regChainHas sInit ((sInit.reg 0).registry) (RKey.nameKey "missing") = false
    ∧ ((sInit.reg 0).paramNamesAsBindings && regChainHas sInit ((sInit.reg 0).registry) (RKey.nameKey "p")) = false
    ∧ paramGo (resolveRecursiveF 5) 0 "p" [] Option.none (some (RKey.nameKey "missing")) (some (Value.vint 9)) true Option.none sInit
        = (Except.ok (Value.vint 9, [], []), sInit) :=
  ⟨by decide, by decide,
    (((c10_absent_name_binding_falls_through 5 0 "p" [] (RKey.nameKey "missing")
        (some (Value.vint 9)) true Option.none sInit (by decide)).2 (by decide)).1
      (Value.vint 9) rfl)⟩

/-- C3 amended: a value supplied via with_params is used as-is, with no
recursive resolution and no default substitution, for every supplied value
other than None; a supplied None that is not overridden by the last-resort
fallbacks also survives, but when the parameter name is a registered key (and
the record allows name-as-key lookup) or a default exists, the supplied None
is replaced by that fallback. -/
theorem c3_explicit_value_amended :
    (∀ recF rid pname deque v nb dflt pd ann s, v ≠ Value.vnone →
        paramGo recF rid pname deque (some v) nb dflt pd ann s = (Except.ok (v, [], deque), s))
    ∧ (∀ recF rid pname deque nb pd ann s,
        ((s.reg rid).paramNamesAsBindings && regChainHas s (s.reg rid).registry (RKey.nameKey pname)) = false →
        paramGo recF rid pname deque (some Value.vnone) nb Option.none pd ann s
          = (Except.ok (Value.vnone, [], deque), s)) := by
  constructor
  · intro recF rid pname deque v nb dflt pd ann s hv
    simp [paramGo, lastResortGo, hv]
  · intro recF rid pname deque nb pd ann s hnk
    simp [paramGo, lastResortGo, hnk]

/-- C3 witness: the explicit value 3 is used exactly as supplied. -/
theorem c3_witness :
    Value.vint 3 ≠ Value.vnone
    ∧ paramGo (resolveRecursiveF 3) 0 "p" [] (some (Value.vint 3)) Option.none Option.none false Option.none sInit
        = (Except.ok (Value.vint 3, [], []), sInit) :=
  ⟨by decide,
    c3_explicit_value_amended.1 (resolveRecursiveF 3) 0 "p" [] (Value.vint 3)
      Option.none Option.none false Option.none sInit (by decide)⟩

/-- C3 counterexample: the echo producer is configured with the explicit
keyword value x=None, yet resolving yields 7, the value registered under the
name x — the supplied None is not used as the argument. -/
theorem c3_counterexample :
    (sc3.reg sc3g.1).givenKeywordParams = [("x", Value.vnone)]
    ∧ (resolveNameF 10 sc3m.1 "g" false sc3).1 = Except.ok (Value.vint 7) :=
  ⟨by decide, by decide⟩

/-! Cache and invocation facts about _resolve_recursive. -/

theorem recursiveGo_ok_cache (recF : RecFun) (rid : Nat) (errors : List String)
    (deque : List Nat) (pd : Bool) (s : DiState) (v : Value) (es : List String)
    (dq : List Nat) (s1 : DiState)
    (h : recursiveGo recF rid errors deque pd s = (Except.ok (v, es, dq), s1)) :
    (s1.reg rid).cachedInstance = v := by
  simp only [recursiveGo] at h
  split at h
  · split at h
    · rename_i vO subErrs dqO sO heqO
      simp only [Prod.mk.injEq, Except.ok.injEq] at h
      obtain ⟨⟨hv, -, -⟩, hs⟩ := h
      subst hs
      exact hv
    · simp at h
  · simp only [Prod.mk.injEq, Except.ok.injEq] at h
    obtain ⟨⟨hv, -, -⟩, hs⟩ := h
    subst hs
    exact hv

theorem resolveRecursiveF_ok_cache (fuel rid : Nat) (errors : List String)
    (deque : List Nat) (pd : Bool) (s : DiState) (v : Value) (es : List String)
    (dq : List Nat) (s1 : DiState)
    (h : resolveRecursiveF fuel rid errors deque pd s = (Except.ok (v, es, dq), s1)) :
    (s1.reg rid).cachedInstance = v := by
  cases fuel with
  | zero => simp [resolveRecursiveF] at h
  | succ f =>
    exact recursiveGo_ok_cache (resolveRecursiveF f) rid errors deque pd s v es dq s1
      (by simpa [resolveRecursiveF] using h)

theorem resolveF_ok_cache (fuel rid : Nat) (pd : Bool) (s : DiState) (v : Value) (s2 : DiState)
    (h : resolveF fuel rid pd s = (Except.ok v, s2)) :
    (s2.reg rid).cachedInstance = v := by
  unfold resolveF at h
  split at h
  · simp at h
  · split at h
    · rename_i v1 es dq s1 heq
      simp only [Prod.mk.injEq, Except.ok.injEq] at h
      obtain ⟨hv, hs⟩ := h
      subst hs
      subst hv
      exact resolveRecursiveF_ok_cache fuel rid [] [] pd s _ es dq _ heq
    · simp at h

/-- C2 amended: every successful resolve leaves the produced value in the
record cached-instance field (first conjunct); and a valid Singleton record
whose cached instance is a non-None value v resolves to v immediately with
the whole state untouched — no producer invocation, for every
prefer_defaults flag and every surrounding state, hence independent of any
change in bindings since the cache was populated (second conjunct). A
Singleton resolve that produced None leaves the cache empty, so the claim as
stated fails for None-producing records. -/
theorem c2_singleton_cache_amended :
    (∀ fuel rid pd s v s2, resolveF fuel rid pd s = (Except.ok v, s2) →
        (s2.reg rid).cachedInstance = v)
    ∧ (∀ fuel rid pd s v, (s.reg rid).isValid = true →
        (s.reg rid).inst = Instantiation.singleton →
        (s.reg rid).cachedInstance = v → v ≠ Value.vnone →
        resolveF (fuel+1) rid pd s = (Except.ok v, s)) := by
  constructor
  · exact fun fuel rid pd s v s2 h => resolveF_ok_cache fuel rid pd s v s2 h
  · intro fuel rid pd s v hval hsing hcache hnn
    unfold resolveF
    rw [hval]
    simp only [resolveRecursiveF, recursiveGo, hcache, hsing, hnn]
    simp [hnn]

/-- C2 witness: a ValueRegister holding 7 (a cached Singleton) resolves to 7
with no state change and no producer invocation. -/
theorem c2_witness :
    (scw.reg scwr.1).isValid = true
    ∧ (scw.reg scwr.1).inst = Instantiation.singleton
    ∧ (scw.reg scwr.1).cachedInstance = Value.vint 7
    ∧ Value.vint 7 ≠ Value.vnone
    ∧ resolveF 4 scwr.1 true scw = (Except.ok (Value.vint 7), scw) :=
  ⟨by decide, by decide, by decide, by decide,
    c2_singleton_cache_amended.2 3 scwr.1 true scw (Value.vint 7)
      (by decide) (by decide) (by decide) (by decide)⟩

/-- C2 counterexample: a Singleton record whose producer returns None. The
first resolve succeeds (returning None), yet the second resolve invokes the
producer again: after two resolves the invocation log holds two entries,
refuting that after one successful resolve every subsequent resolve returns
the cached instance without invoking the producer. -/
theorem c2_counterexample :
    (sc2.reg sc2r.1).inst = Instantiation.singleton
    ∧ (resolveF 10 sc2r.1 false sc2).1 = Except.ok Value.vnone
    ∧ (resolveF 10 sc2r.1 false (resolveF 10 sc2r.1 false sc2).2).2.log
        = [(sc2r.1, Value.vnone), (sc2r.1, Value.vnone)] :=
  ⟨by decide, by decide, by decide⟩

theorem oneGo_ok_log (recF : RecFun) (hrec : RecPreserves recF) (rid : Nat)
    (deque : List Nat) (pd : Bool) (s : DiState) (v : Value) (es : List String)
    (dq : List Nat) (s1 : DiState)
    (hdq : deque.contains rid = false)
    (h : oneGo recF rid deque pd s = (Except.ok (v, es, dq), s1)) :
    ∃ t, s1.log = s.log ++ t ++ [(rid, v)] := by
  simp only [oneGo] at h
  split at h
  · simp at h
  · rename_i c hc
    rw [if_neg (by rw [hdq]; exact Bool.false_ne_true)] at h
    split at h
    · rename_i argVals kwargVals errs dq2 s1P heqP
      split at h
      · simp at h
      · simp only [Prod.mk.injEq, Except.ok.injEq] at h
        obtain ⟨⟨hv, -, -⟩, hs⟩ := h
        obtain ⟨t, ht⟩ := logExtends_of_match (paramsGo_logExt recF hrec rid pd c _ s) heqP
        refine ⟨t, ?_⟩
        rw [← hs]
        show s1P.log ++ [(rid, c.construct argVals kwargVals s1P.nextObjId)] = s.log ++ t ++ [(rid, v)]
        rw [ht, hv, List.append_assoc]
    · simp at h

/-- C6 amended: every successful resolve of a valid MultiInstance record
invokes the producer afresh during that call (the invocation log gains an
entry for this record carrying the returned value, after whatever nested
invocations preceded it), the fresh result is what is returned — the stale
cache is never used as the result — but the cached-instance field is
overwritten with the fresh result on every resolve, rather than never being
written. -/
theorem c6_multi_instance_amended :
    ∀ fuel rid pd s v s2, (s.reg rid).inst = Instantiation.multiInstance →
      resolveF fuel rid pd s = (Except.ok v, s2) →
      (s2.reg rid).cachedInstance = v ∧ ∃ t, s2.log = s.log ++ t ++ [(rid, v)] := by
  intro fuel rid pd s v s2 hmult h
  refine ⟨resolveF_ok_cache fuel rid pd s v s2 h, ?_⟩
  unfold resolveF at h
  split at h
  · simp at h
  · split at h
    · rename_i v1 es dq s1 heq
      simp only [Prod.mk.injEq, Except.ok.injEq] at h
      obtain ⟨hv, hs⟩ := h
      subst hs
      subst hv
      cases fuel with
      | zero => simp [resolveRecursiveF] at heq
      | succ f =>
        simp only [resolveRecursiveF] at heq
        simp only [recursiveGo, hmult] at heq
        rw [if_pos (by simp)] at heq
        split at heq
        · rename_i vO subErrs dqO sO heqO
          simp only [Prod.mk.injEq, Except.ok.injEq] at heq
          obtain ⟨⟨hv1, -, -⟩, hs1⟩ := heq
          obtain ⟨t, ht⟩ := oneGo_ok_log (resolveRecursiveF f) (resolveRecursiveF_logExt f)
            rid [] pd s vO subErrs dqO sO (by simp) heqO
          refine ⟨t, ?_⟩
          rw [← hs1]
          have hvv : v1 = vO := by rw [← hv1]; simp
          rw [log_setRegister, ht, hvv]
        · simp at heq
    · simp at h

/-- C6 witness: the MultiInstance record resolves to a fresh object, which
ends up both in the cached-instance field and as the final log entry. -/
theorem c6_witness :
    ((resolveF 10 sc6r.1 false sc6).2.reg sc6r.1).cachedInstance = Value.vobj 300 0
    ∧ ∃ t, (resolveF 10 sc6r.1 false sc6).2.log = sc6.log ++ t ++ [(sc6r.1, Value.vobj 300 0)] :=
  c6_multi_instance_amended 10 sc6r.1 false sc6 (Value.vobj 300 0) (resolveF 10 sc6r.1 false sc6).2
    (by decide)
    (by
      have h1 : (resolveF 10 sc6r.1 false sc6).1 = Except.ok (Value.vobj 300 0) := by decide
      rw [← h1])

/-- C6 counterexample: before the resolve the MultiInstance record has an
empty (None) cached-instance field; after one resolve the field holds the
produced object — the resolve wrote the cache, refuting that the field is
never populated. -/
theorem c6_counterexample :
    (sc6.reg sc6r.1).inst = Instantiation.multiInstance
    ∧ (sc6.reg sc6r.1).cachedInstance = Value.vnone
    ∧ ((resolveF 10 sc6r.1 false sc6).2.reg sc6r.1).cachedInstance = Value.vobj 300 0 :=
  ⟨by decide, by decide, by decide⟩

/-- C1 (evaluation of the divergence): the value 42 is registered to the
name k only in the attached sub-container, so k is present in the full
registry chain of the main container (second conjunct), yet resolve_name on
the main container raises the unknown-key ValueError (first conjunct),
because Container._resolve reads the registry with dict.get, which on a dict
subclass bypasses the overridden chain lookup. Resolving directly on the sub
container succeeds (third conjunct). -/
theorem c1_bug_eval :
    (resolveNameF 10 sc1m.1 "k" false sc1).1
        = Except.error (DiErr.valueError "key is not registered in this container")
    ∧ regChainHas sc1 (sc1.cont sc1m.1).registry (RKey.nameKey "k") = true
    ∧ (resolveNameF 10 sc1s.1 "k" false sc1).1 = Except.ok (Value.vint 42) :=
  ⟨by decide, by decide, by decide⟩

/-- C5 amended: add_sub_container raises the container-cycle error and
leaves the state entirely unchanged precisely when the depth-first check
finds the parent reachable from the new sub-container through one or more
existing containment links; when the check finds no such path — including
the self-attachment of a container that is not yet self-reachable — the
attachment succeeds. -/
theorem c5_cycle_check_amended :
    ∀ parent child s,
      (containerReach s child parent = true →
        addSubContainerF parent child s
          = (Except.error (DiErr.diContainerError "adding the sub container will create a circular chain of containers"), s))
      ∧ (containerReach s child parent = false →
        (addSubContainerF parent child s).1 = Except.ok ()) := by
  intro parent child s
  constructor
  · intro hr
    unfold addSubContainerF
    rw [if_pos (by rw [hr])]
  · intro hr
    unfold addSubContainerF
    rw [if_neg (by rw [hr]; exact Bool.false_ne_true)]

/-- C5 witness: with container b attached under container a, attaching a
under b is reachable in one step, so the cycle error is raised and the state
is unchanged. -/
theorem c5_witness :
    containerReach sc5ab sc5a.1 sc5bC.1 = true
    ∧ addSubContainerF sc5bC.1 sc5a.1 sc5ab
        = (Except.error (DiErr.diContainerError "adding the sub container will create a circular chain of containers"), sc5ab) :=
  ⟨by decide, (c5_cycle_check_amended sc5bC.1 sc5a.1 sc5ab).1 (by decide)⟩

/-- C5 counterexample: attaching a fresh container to itself succeeds (no
container-cycle error) and the self-link is present afterwards, refuting
that attaching a container to itself raises and leaves no link. -/
theorem c5_counterexample :
    (addSubContainerF sc5.1 sc5.1 sc5.2).1 = Except.ok ()
    ∧ slistGet ((addSubContainerF sc5.1 sc5.1 sc5.2).2.cont sc5.1).subContainers "c" = some sc5.1 :=
  ⟨by decide, by decide⟩

/-- C4 amended: binding a record to an occupied key with replace succeeds by
overwriting the local registry entry — the key now maps to the new record,
both in the local dict and through the chain lookup, so subsequent resolves
of the key reflect the new binding — while every other record on the heap,
in particular the superseded one, is left byte-for-byte unchanged: it is
not invalidated and keeps accepting operations. -/
theorem c4_replace_amended :
    ∀ rid k t s u s2, registerToKeyF rid k t true s = (Except.ok u, s2) →
      alistGet (s2.regy (s.reg rid).registry).entries k = some rid
      ∧ regChainGet s2 (s.reg rid).registry k = some rid
      ∧ ∀ j, j ≠ rid → s2.reg j = s.reg j := by
  intro rid k t s u s2 h
  simp only [registerToKeyF] at h
  split at h
  · simp at h
  · simp only [Bool.not_true, Bool.and_false, Bool.false_eq_true, if_false] at h
    split at h
    · rename_i tc htc
      split at h
      · simp at h
      · simp only [Prod.mk.injEq] at h
        obtain ⟨-, hs⟩ := h
        subst hs
        refine ⟨?_, ?_, ?_⟩
        · rw [regy_setRegister, regy_setRegistry_self]
          exact alistGet_alistSet_self _ _ _
        · show registryGetItemF _ _ _ _ = some rid
          simp only [registryGetItemF, regy_setRegister, regy_setRegistry_self,
            alistGet_alistSet_self]
        · intro j hj
          rw [reg_setRegister_ne _ _ _ _ hj, reg_setRegistry]
    · simp only [Prod.mk.injEq] at h
      obtain ⟨-, hs⟩ := h
      subst hs
      refine ⟨?_, ?_, ?_⟩
      · rw [regy_setRegister, regy_setRegistry_self]
        exact alistGet_alistSet_self _ _ _
      · show registryGetItemF _ _ _ _ = some rid
        simp only [registryGetItemF, regy_setRegister, regy_setRegistry_self,
          alistGet_alistSet_self]
      · intro j hj
        rw [reg_setRegister_ne _ _ _ _ hj, reg_setRegistry]

/-- C4 witness: replacing the binding of the name k installs the new record
in the registry while the old record is untouched. -/
theorem c4_witness :
    alistGet ((sc4.regy (sc4pre.reg sc4r2.1).registry).entries) (RKey.nameKey "k") = some sc4r2.1
    ∧ regChainGet sc4 (sc4pre.reg sc4r2.1).registry (RKey.nameKey "k") = some sc4r2.1
    ∧ ∀ j, j ≠ sc4r2.1 → sc4.reg j = sc4pre.reg j :=
  c4_replace_amended sc4r2.1 (RKey.nameKey "k") 0 sc4pre () sc4
    (by
      have h1 : (registerToKeyF sc4r2.1 (RKey.nameKey "k") 0 true sc4pre).1 = Except.ok () := by decide
      rw [← h1]
      exact Prod.mk.eta.symm)

/-- C4 counterexample: after the name k is rebound with replace, the
superseded record is still valid, still accepts configuration calls and
still resolves successfully — it did not become an inert Invalidated
record; the key itself resolves to the new binding. -/
theorem c4_counterexample :
    (sc4.reg sc4r1.1).isValid = true
    ∧ (withParamsF sc4r1.1 [] [] sc4).1 = Except.ok ()
    ∧ (resolveF 10 sc4r1.1 false sc4).1 = Except.ok (Value.vobj 100 0)
    ∧ (resolveNameF 10 sc4m.1 "k" false sc4).1 = Except.ok (Value.vobj 200 0) :=
  ⟨by decide, by decide, by decide, by decide⟩

/-- C8: binding is atomic on failure. A failing _register_to_key — and a
failing to_type or to_name — returns with the state exactly as it was: the
already-bound check, the key-conflict check against the registry chain and
the exposed-type check all run before the registry dict and the record key
are written (first three conjuncts). In particular an incompatible exposed
type raises the type-mismatch error at bind time with the state unchanged,
before any resolve call exists (fourth conjunct). -/
theorem c8_bind_atomic_on_failure :
    (∀ rid k t rep s e s2, registerToKeyF rid k t rep s = (Except.error e, s2) → s2 = s)
    ∧ (∀ rid t rep s e s2, toTypeF rid t rep s = (Except.error e, s2) → s2 = s)
    ∧ (∀ rid nm bt rep s e s2, toNameF rid nm bt rep s = (Except.error e, s2) → s2 = s)
    ∧ (∀ rid k t rep s tc, (s.reg rid).key = Option.none →
        (regChainHas s (s.reg rid).registry k && !rep) = false →
        typeToCheckF s rid = some tc →
        s.env.subclass tc t = false →
        registerToKeyF rid k t rep s = (Except.error (DiErr.typeError "not a subclass"), s)) := by
  have hA : ∀ rid k t rep s e s2, registerToKeyF rid k t rep s = (Except.error e, s2) → s2 = s := by
    intro rid k t rep s e s2 h
    simp only [registerToKeyF] at h
    repeat' split at h
    all_goals first
      | (simp only [Prod.mk.injEq] at h; exact h.2.symm)
      | simp at h
  refine ⟨hA, ?_, ?_, ?_⟩
  · intro rid t rep s e s2 h
    unfold toTypeF at h
    split at h
    · simp only [Prod.mk.injEq] at h; exact h.2.symm
    · exact hA _ _ _ _ _ _ _ h
  · intro rid nm bt rep s e s2 h
    unfold toNameF at h
    split at h
    · simp only [Prod.mk.injEq] at h; exact h.2.symm
    · exact hA _ _ _ _ _ _ _ h
  · intro rid k t rep s tc hkey hconf htc hsub
    simp only [registerToKeyF, hkey, htc]
    rw [if_neg (by rw [hconf]; exact Bool.false_ne_true)]
    rw [if_pos (by rw [hsub]; rfl)]

/-- C8 witness: binding the string value 1234 to the int type raises the
type-mismatch error at bind time and leaves the state unchanged. -/
theorem c8_witness :
    (sc8r.2.reg sc8r.1).key = Option.none
    ∧ typeToCheckF sc8r.2 sc8r.1 = some 3
    ∧ sc8r.2.env.subclass 3 2 = false
    ∧ registerToKeyF sc8r.1 (RKey.typeKey 2) 2 false sc8r.2
        = (Except.error (DiErr.typeError "not a subclass"), sc8r.2) :=
  ⟨by decide, by decide, by decide,
    c8_bind_atomic_on_failure.2.2.2 sc8r.1 (RKey.typeKey 2) 2 false sc8r.2 3
      (by decide) (by decide) (by decide) (by decide)⟩

/-! Invalidation helpers. -/

theorem isEmpty_false_of_ne_nil {α : Type} {l : List α} (h : l ≠ []) : l.isEmpty = false := by
  cases l with
  | nil => exact absurd rfl h
  | cons a t => rfl

theorem invalidateF_reg_self (rid : Nat) (s : DiState) :
    (invalidateF rid s).reg rid = { s.reg rid with isValid := false } := by
  simp only [invalidateF]
  split
  · rw [reg_setRegistry, reg_setRegister_self]
  · rw [reg_setRegister_self]

theorem invalidateF_regy_pop (rid : Nat) (s : DiState) (k : RKey)
    (hk : (s.reg rid).key = some k) :
    (invalidateF rid s).regy ((s.reg rid).registry)
      = { s.regy ((s.reg rid).registry) with
          entries := alistPop (s.regy ((s.reg rid).registry)).entries k } := by
  simp only [invalidateF, hk]
  rw [regy_setRegistry_self, regy_setRegister]

theorem resolveF_invalid (fuel rid : Nat) (pd : Bool) (s : DiState)
    (h : (s.reg rid).isValid = false) :
    (resolveF fuel rid pd s).1 = Except.error (DiErr.diContainerError "not valid") := by
  unfold resolveF
  rw [if_pos (by rw [h]; rfl)]

theorem toTypeF_invalid (rid t : Nat) (rep : Bool) (s : DiState)
    (h : (s.reg rid).isValid = false) :
    (toTypeF rid t rep s).1 = Except.error (DiErr.diContainerError "not valid") := by
  unfold toTypeF
  rw [if_pos (by rw [h]; rfl)]

theorem withParamsF_invalid (rid : Nat) (p : List Value) (kw : List (String × Value)) (s : DiState)
    (hvv : isValueVariant (s.reg rid) = false) (h : (s.reg rid).isValid = false) :
    (withParamsF rid p kw s).1 = Except.error (DiErr.diContainerError "not valid") := by
  cases hv : (s.reg rid).variant with
  | valueReg => simp [isValueVariant, hv] at hvv
  | callableReg c rt =>
    simp only [withParamsF, hv]
    rw [if_pos (by rw [h]; rfl)]
  | typeReg tt c =>
    simp only [withParamsF, hv]
    rw [if_pos (by rw [h]; rfl)]

theorem invalidate_pops (rid : Nat) (s1 : DiState) (k : RKey)
    (hk : (s1.reg rid).key = some k)
    (hnodup : ((s1.regy (s1.reg rid).registry).entries.map Prod.fst).Nodup) :
    alistGet ((invalidateF rid s1).regy (s1.reg rid).registry).entries k = Option.none := by
  rw [invalidateF_regy_pop rid s1 k hk]
  exact alistGet_alistPop_self _ _ hnodup

theorem invalidatedState_facts (rid : Nat) (s1 : DiState)
    (hvv : isValueVariant (s1.reg rid) = false) :
    ((invalidateF rid s1).reg rid).isValid = false
    ∧ (∀ fuel pd, (resolveF fuel rid pd (invalidateF rid s1)).1
        = Except.error (DiErr.diContainerError "not valid"))
    ∧ (∀ p kw, (withParamsF rid p kw (invalidateF rid s1)).1
        = Except.error (DiErr.diContainerError "not valid"))
    ∧ (∀ t rep, (toTypeF rid t rep (invalidateF rid s1)).1
        = Except.error (DiErr.diContainerError "not valid")) := by
  have h1 : ((invalidateF rid s1).reg rid).isValid = false := by rw [invalidateF_reg_self]
  have h2 : isValueVariant ((invalidateF rid s1).reg rid) = false := by
    rw [invalidateF_reg_self]
    exact hvv
  exact ⟨h1, fun fuel pd => resolveF_invalid fuel rid pd _ h1,
    fun p kw => withParamsF_invalid rid p kw _ h2 h1,
    fun t rep => toTypeF_invalid rid t rep _ h1⟩

theorem withNameBindingsF_both (rid : Nat) (posNB : List RKey) (kwNB : List (String × RKey))
    (s : DiState)
    (hval : (s.reg rid).isValid = true) (hvv : isValueVariant (s.reg rid) = false)
    (hP : (s.reg rid).givenPositionalParams ≠ []) (hNB : posNB ≠ []) :
    withNameBindingsF rid posNB kwNB s
      = (Except.error (DiErr.diContainerError "cannot define both positional params and positional name bindings"),
         invalidateF rid (s.setRegister rid { s.reg rid with givenPositionalNameBindings := posNB })) := by
  cases hv : (s.reg rid).variant with
  | valueReg => simp [isValueVariant, hv] at hvv
  | callableReg c rt =>
    simp only [withNameBindingsF, hv]
    rw [if_neg (by simp [hval])]
    rw [if_pos (by simp [isEmpty_false_of_ne_nil hP, isEmpty_false_of_ne_nil hNB])]
  | typeReg tt c =>
    simp only [withNameBindingsF, hv]
    rw [if_neg (by simp [hval])]
    rw [if_pos (by simp [isEmpty_false_of_ne_nil hP, isEmpty_false_of_ne_nil hNB])]

theorem withParamsF_both (rid : Nat) (pos : List Value) (kw : List (String × Value))
    (s : DiState)
    (hval : (s.reg rid).isValid = true) (hvv : isValueVariant (s.reg rid) = false)
    (hNB : (s.reg rid).givenPositionalNameBindings ≠ []) (hP : pos ≠ []) :
    withParamsF rid pos kw s
      = (Except.error (DiErr.diContainerError "cannot define both positional params and positional name bindings"),
         invalidateF rid (s.setRegister rid { s.reg rid with givenPositionalParams := pos })) := by
  cases hv : (s.reg rid).variant with
  | valueReg => simp [isValueVariant, hv] at hvv
  | callableReg c rt =>
    simp only [withParamsF, hv]
    rw [if_neg (by simp [hval])]
    rw [if_pos (by simp [isEmpty_false_of_ne_nil hP, isEmpty_false_of_ne_nil hNB])]
  | typeReg tt c =>
    simp only [withParamsF, hv]
    rw [if_neg (by simp [hval])]
    rw [if_pos (by simp [isEmpty_false_of_ne_nil hP, isEmpty_false_of_ne_nil hNB])]

/-- C9: configuring positional explicit values and positional name-bindings
on the same valid (non-value) record, in either order, makes the later call
raise the configuration error and, as a side effect, invalidate the record:
the error state has the validity flag cleared, the record key popped from
its registry dict (when it was bound and the dict keys are distinct, as dict
keys are), and every subsequent resolve, with_params or to_type call on the
record fails with the validity error — the error is not atomic with respect
to the record state. -/
theorem c9_both_positional_invalidates :
    (∀ rid s posNB kwNB,
      (s.reg rid).isValid = true →
      isValueVariant (s.reg rid) = false →
      (s.reg rid).givenPositionalParams ≠ [] →
      posNB ≠ [] →
      (withNameBindingsF rid posNB kwNB s).1
          = Except.error (DiErr.diContainerError "cannot define both positional params and positional name bindings")
      ∧ (((withNameBindingsF rid posNB kwNB s).2).reg rid).isValid = false
      ∧ (∀ k, (s.reg rid).key = some k →
          ((s.regy (s.reg rid).registry).entries.map Prod.fst).Nodup →
          alistGet (((withNameBindingsF rid posNB kwNB s).2).regy (s.reg rid).registry).entries k
            = Option.none)
      ∧ (∀ fuel pd, (resolveF fuel rid pd ((withNameBindingsF rid posNB kwNB s).2)).1
          = Except.error (DiErr.diContainerError "not valid"))
      ∧ (∀ p kw, (withParamsF rid p kw ((withNameBindingsF rid posNB kwNB s).2)).1
          = Except.error (DiErr.diContainerError "not valid"))
      ∧ (∀ t rep, (toTypeF rid t rep ((withNameBindingsF rid posNB kwNB s).2)).1
          = Except.error (DiErr.diContainerError "not valid")))
    ∧ (∀ rid s pos kw,
      (s.reg rid).isValid = true →
      isValueVariant (s.reg rid) = false →
      (s.reg rid).givenPositionalNameBindings ≠ [] →
      pos ≠ [] →
      (withParamsF rid pos kw s).1
          = Except.error (DiErr.diContainerError "cannot define both positional params and positional name bindings")
      ∧ (((withParamsF rid pos kw s).2).reg rid).isValid = false
      ∧ (∀ fuel pd, (resolveF fuel rid pd ((withParamsF rid pos kw s).2)).1
          = Except.error (DiErr.diContainerError "not valid"))) := by
  constructor
  · intro rid s posNB kwNB hval hvv hP hNB
    have hres := withNameBindingsF_both rid posNB kwNB s hval hvv hP hNB
    have e1 : ((s.setRegister rid { s.reg rid with givenPositionalNameBindings := posNB }).reg rid)
        = { s.reg rid with givenPositionalNameBindings := posNB } := reg_setRegister_self _ _ _
    have hvv1 : isValueVariant
        ((s.setRegister rid { s.reg rid with givenPositionalNameBindings := posNB }).reg rid) = false := by
      rw [e1]
      exact hvv
    have hfacts := invalidatedState_facts rid
      (s.setRegister rid { s.reg rid with givenPositionalNameBindings := posNB }) hvv1
    refine ⟨by rw [hres], by rw [hres]; exact hfacts.1, ?_, ?_, ?_, ?_⟩
    · intro k hk hnodup
      rw [hres]
      have hk1 : ((s.setRegister rid { s.reg rid with givenPositionalNameBindings := posNB }).reg rid).key
          = some k := by rw [e1]; exact hk
      have hrg : ((s.setRegister rid { s.reg rid with givenPositionalNameBindings := posNB }).reg rid).registry
          = (s.reg rid).registry := by rw [e1]
      have hnodup1 : (((s.setRegister rid { s.reg rid with givenPositionalNameBindings := posNB }).regy
          ((s.setRegister rid { s.reg rid with givenPositionalNameBindings := posNB }).reg rid).registry).entries.map
            Prod.fst).Nodup := by
        rw [hrg, regy_setRegister]
        exact hnodup
      have hp := invalidate_pops rid
        (s.setRegister rid { s.reg rid with givenPositionalNameBindings := posNB }) k hk1 hnodup1
      rw [hrg] at hp
      exact hp
    · intro fuel pd
      rw [hres]
      exact hfacts.2.1 fuel pd
    · intro p kw
      rw [hres]
      exact hfacts.2.2.1 p kw
    · intro t rep
      rw [hres]
      exact hfacts.2.2.2 t rep
  · intro rid s pos kw hval hvv hNB hP
    have hres := withParamsF_both rid pos kw s hval hvv hNB hP
    have e1 : ((s.setRegister rid { s.reg rid with givenPositionalParams := pos }).reg rid)
        = { s.reg rid with givenPositionalParams := pos } := reg_setRegister_self _ _ _
    have hvv1 : isValueVariant
        ((s.setRegister rid { s.reg rid with givenPositionalParams := pos }).reg rid) = false := by
      rw [e1]
      exact hvv
    have hfacts := invalidatedState_facts rid
      (s.setRegister rid { s.reg rid with givenPositionalParams := pos }) hvv1
    exact ⟨by rw [hres], by rw [hres]; exact hfacts.1,
      fun fuel pd => by rw [hres]; exact hfacts.2.1 fuel pd⟩

/-- C9 witness: on the record with the positional value 1 already set,
with_name_bindings with a positional binding raises the configuration error,
clears the validity flag and pops the bound name v from the registry. -/
theorem c9_witness :
    (withNameBindingsF sc9r.1 [RKey.nameKey "q"] [] sc9).1
        = Except.error (DiErr.diContainerError "cannot define both positional params and positional name bindings")
    ∧ ((withNameBindingsF sc9r.1 [RKey.nameKey "q"] [] sc9).2.reg sc9r.1).isValid = false
    ∧ alistGet (((withNameBindingsF sc9r.1 [RKey.nameKey "q"] [] sc9).2).regy
        (sc9.reg sc9r.1).registry).entries (RKey.nameKey "v") = Option.none :=
  have h := c9_both_positional_invalidates.1 sc9r.1 sc9 [RKey.nameKey "q"] []
    (by decide) (by decide) (by decide) (by decide)
  ⟨h.1, h.2.1, h.2.2.1 (RKey.nameKey "v") (by decide) (by decide)⟩

end DiCon
